import Mathlib

/-!
# night-sky.js: particle store, constellation links and per-frame physics

A shallow embedding of `src/assets/night-sky.js`.

Modelling conventions.

* JavaScript numbers are modelled as elements of a linearly ordered field `α`
  with a floor function (exact arithmetic; `ℚ` makes every definition
  executable, `ℝ` is used where the script calls `Math.sqrt`).
* `Math.sqrt` and `Math.PI` are parameters (`sqrt`, `pi`) of the functions that
  use them; theorems about magnitudes instantiate them with `Real.sqrt` and
  `Real.pi`.
* `Math.random()` is a stream `rnd : Nat → α`; the `k`-th call made by
  `createStars` returns `rnd k`.
* The script mutates `W`, `H`, `stars`, `edges`, `mouse`, `moonEnabled` and
  `moonNewPhase`; they are the fields of `Scene` and every function returns the
  updated value.  Drawing does not change that state and is left out.
-/

namespace NightSky

/-- The `CFG` object of the script (the fields the simulation reads). -/
structure Config (α : Type) where
  baseCount : α
  connectDist : α
  constellateDist : α
  constellations : Nat
  gatherRadius : α
  gatherBlend : α
  gatherStrength : α
  maxSpeed : α
  damping : α
  returnSpring : α
  starSizeLo : α
  starSizeHi : α
  twinkleSpeed : α

/-- The `moon` object of the script (the numeric fields). -/
structure MoonCfg (α : Type) where
  sizeFactor : α
  xFactor : α
  yFactor : α
  repelRadius : α
  repelStrength : α

/-- One star: position, home, velocity, radius and twinkle phase. -/
structure Star (α : Type) where
  x : α
  y : α
  ox : α
  oy : α
  vx : α
  vy : α
  r : α
  phase : α

/-- A constellation edge `[i, j, d2]`. -/
structure Edge (α : Type) where
  i : Nat
  j : Nat
  d2 : α

/-- The `mouse` object: last pointer position and whether a pointer is engaged. -/
structure Mouse (α : Type) where
  x : α
  y : α
  active : Bool

/-- The values the script reads from `window`. -/
structure Window (α : Type) where
  devicePixelRatio : α
  innerWidth : α
  innerHeight : α

/-- The mutable variables of the script. -/
structure Scene (α : Type) where
  W : α
  H : α
  stars : List (Star α)
  edges : List (Edge α)
  mouse : Mouse α
  moonEnabled : Bool
  moonNewPhase : Bool

section Defs

variable {α : Type} [LinearOrderedField α]

/-- The constants of `CFG`. -/
def CFG : Config α where
  baseCount := 270
  connectDist := 110
  constellateDist := 160
  constellations := 18
  gatherRadius := 120
  gatherBlend := 18 / 100
  gatherStrength := 28 / 100
  maxSpeed := 16 / 10
  damping := 92 / 100
  returnSpring := 5 / 1000
  starSizeLo := 11 / 10
  starSizeHi := 22 / 10
  twinkleSpeed := 12 / 1000

/-- The constants of `moon`. -/
def moon : MoonCfg α where
  sizeFactor := 25 / 100
  xFactor := 92 / 100
  yFactor := 17 / 100
  repelRadius := 170
  repelStrength := 9 / 10

/-- The function `dpr`: `window.devicePixelRatio || 1`. -/
def dpr (devicePixelRatio : α) : α :=
  if devicePixelRatio = 0 then 1 else devicePixelRatio

/-- The call `Math.round(v)`: nearest integer, halves towards `+∞`. -/
def mathRound [FloorRing α] (v : α) : ℤ := ⌊v + 1 / 2⌋

/-- The call `Math.floor(v)`. -/
def mathFloor [FloorRing α] (v : α) : ℤ := ⌊v⌋

/-- The function `rand(a, b)` at the random draw `u`. -/
def rand (u a b : α) : α := a + u * (b - a)

/-- The initial state: `W = 0, H = 0, stars = [], edges = []`, pointer inactive,
moon enabled and Full. -/
def initScene : Scene α where
  W := 0
  H := 0
  stars := []
  edges := []
  mouse := { x := 0, y := 0, active := false }
  moonEnabled := true
  moonNewPhase := false

/-- The star pushed by iteration `i` of the loop of `createStars`; the six calls
of `Math.random()` are `rnd (6*i) .. rnd (6*i+5)` in evaluation order. -/
def newStar (pi W H r : α) (rnd : Nat → α) (i : Nat) : Star α :=
  let x := rnd (6 * i) * W
  let y := rnd (6 * i + 1) * H
  { x := x, y := y, ox := x, oy := y,
    vx := rand (rnd (6 * i + 2)) (-(2 / 10)) (2 / 10) * r,
    vy := rand (rnd (6 * i + 3)) (-(2 / 10)) (2 / 10) * r,
    r := rand (rnd (6 * i + 4)) (CFG : Config α).starSizeLo (CFG : Config α).starSizeHi * r,
    phase := rnd (6 * i + 5) * pi * 2 }

/-- The function `createStars(n)`: the loop `for (i = 0; i < n; i++)` runs
`n.toNat` times. -/
def createStars (pi W H devicePixelRatio : α) (rnd : Nat → α) (n : ℤ) : List (Star α) :=
  (List.range n.toNat).map (newStar pi W H (dpr devicePixelRatio) rnd)

/-- Squared distance `dx*dx + dy*dy` between two stars. -/
def dist2 (a b : Star α) : α :=
  let dx := a.x - b.x
  let dy := a.y - b.y
  dx * dx + dy * dy

/-- One iteration of the inner loop of `buildConstellations` for star `a` at
index `i`, visiting `b = stars[j]`.  The pair `(bestJ, bestD2)` is `none` for
its initial value `(-1, Infinity)`, against which `d2 < bestD2` holds. -/
def scanStep (a : Star α) (i : Nat) (maxD2 : α) (best : Option (Nat × α))
    (jb : Nat × Star α) : Option (Nat × α) :=
  if jb.1 = i then best
  else
    let d2 := dist2 a jb.2
    match best with
    | none => if d2 < maxD2 then some (jb.1, d2) else none
    | some (bestJ, bestD2) =>
        if d2 < bestD2 ∧ d2 < maxD2 then some (jb.1, d2) else some (bestJ, bestD2)

/-- The inner loop of `buildConstellations`: nearest other star within `maxD2`. -/
def nearest (stars : List (Star α)) (maxD2 : α) (i : Nat) (a : Star α) :
    Option (Nat × α) :=
  stars.enum.foldl (scanStep a i maxD2) none

/-- The outer loop of `buildConstellations`: one candidate edge per star with
a neighbour within range, in index order. -/
def candidates (stars : List (Star α)) (maxD2 : α) : List (Edge α) :=
  stars.enum.filterMap fun ia =>
    (nearest stars maxD2 ia.1 ia.2).map fun jd => { i := ia.1, j := jd.1, d2 := jd.2 }

/-- The comparator of `edges.sort((e1, e2) => e1[2] - e2[2])` as an order. -/
def edgeLE (e1 e2 : Edge α) : Prop := e1.d2 ≤ e2.d2

instance edgeLE_decidable : DecidableRel (edgeLE : Edge α → Edge α → Prop) :=
  fun e1 e2 => inferInstanceAs (Decidable (e1.d2 ≤ e2.d2))

/-- The comparator is total. -/
instance edgeLE_total : IsTotal (Edge α) edgeLE := ⟨fun e1 e2 => le_total e1.d2 e2.d2⟩

/-- The comparator is transitive. -/
instance edgeLE_trans : IsTrans (Edge α) edgeLE := ⟨fun _ _ _ h1 h2 => le_trans h1 h2⟩

/-- The function `buildConstellations`: candidates sorted ascending by `d2`
(a stable sort), then `slice(0, CFG.constellations)`. -/
def buildConstellations (devicePixelRatio : α) (stars : List (Star α)) : List (Edge α) :=
  let maxD2 := ((CFG : Config α).constellateDist * dpr devicePixelRatio) ^ 2
  ((candidates stars maxD2).insertionSort edgeLE).take (CFG : Config α).constellations

/-- The function `resize`.  (For a negative `target` the assignment
`stars.length = target` throws in JavaScript; `innerWidth` and `innerHeight` are
never negative, and here a negative target truncates to the empty store.) -/
def resize [FloorRing α] (pi : α) (win : Window α) (rnd : Nat → α) (sc : Scene α) : Scene α :=
  let ratio := dpr win.devicePixelRatio
  let iw := win.innerWidth
  let ih := win.innerHeight
  let W : α := (mathFloor (iw * ratio) : ℤ)
  let H : α := (mathFloor (ih * ratio) : ℤ)
  let baseArea : α := 1600 * 900
  let area := iw * ih
  let target : ℤ := mathRound ((CFG : Config α).baseCount * (area / baseArea))
  let stars :=
    if sc.stars.length = 0 then
      createStars pi W H win.devicePixelRatio rnd target
    else if (sc.stars.length : ℤ) < target then
      sc.stars ++ createStars pi W H win.devicePixelRatio rnd (target - sc.stars.length)
    else if (sc.stars.length : ℤ) > target then
      sc.stars.take target.toNat
    else sc.stars
  { sc with W := W, H := H, stars := stars,
            edges := buildConstellations win.devicePixelRatio stars }

/-- The function `seekGather`. -/
def seekGather (sqrt : α → α) (devicePixelRatio : α) (mouse : Mouse α) (s : Star α) :
    Star α :=
  if !mouse.active then s
  else
    let r := dpr devicePixelRatio
    let gx := mouse.x
    let gy := mouse.y
    let dx := gx - s.x
    let dy := gy - s.y
    let r2 := ((CFG : Config α).gatherRadius * r) ^ 2
    let d2 := dx * dx + dy * dy
    if d2 > r2 then s
    else
      let w := 1 - d2 / r2
      let invD := 1 / (sqrt d2 + 1 / 1000000)
      { s with
        x := s.x + dx * ((CFG : Config α).gatherBlend * (1 / 2 + 1 / 2 * w)),
        y := s.y + dy * ((CFG : Config α).gatherBlend * (1 / 2 + 1 / 2 * w)),
        vx := s.vx + dx * invD * ((CFG : Config α).gatherStrength * (6 / 10)),
        vy := s.vy + dy * invD * ((CFG : Config α).gatherStrength * (6 / 10)) }

/-- The function `springHome`. -/
def springHome (s : Star α) : Star α :=
  let hx := s.ox - s.x
  let hy := s.oy - s.y
  { s with vx := s.vx + hx * (CFG : Config α).returnSpring,
           vy := s.vy + hy * (CFG : Config α).returnSpring }

/-- The damping lines of `step`: `s.vx *= CFG.damping; s.vy *= CFG.damping`. -/
def damp (s : Star α) : Star α :=
  { s with vx := s.vx * (CFG : Config α).damping, vy := s.vy * (CFG : Config α).damping }

/-- The block `if (moonEnabled) { ... }` of `step`: repulsion from the moon. -/
def repelFromMoon (sqrt : α → α) (devicePixelRatio W H : α) (moonEnabled : Bool)
    (s : Star α) : Star α :=
  if moonEnabled then
    let moonSize := min W H * (moon : MoonCfg α).sizeFactor
    let mx := W * (moon : MoonCfg α).xFactor
    let my := H * (moon : MoonCfg α).yFactor
    let dx := s.x - mx
    let dy := s.y - my
    let dist2 := dx * dx + dy * dy
    let repelR2 := ((moon : MoonCfg α).repelRadius * dpr devicePixelRatio + moonSize / 2) ^ 2
    if dist2 < repelR2 then
      let dist := sqrt dist2 + 1 / 1000
      let force := (moon : MoonCfg α).repelStrength * (1 - dist2 / repelR2)
      { s with vx := s.vx + dx / dist * force, vy := s.vy + dy / dist * force }
    else s
  else s

/-- The integration lines of `step`: `s.x += s.vx; s.y += s.vy`. -/
def integrate (s : Star α) : Star α :=
  { s with x := s.x + s.vx, y := s.y + s.vy }

/-- The function `capVelocity`. -/
def capVelocity (sqrt : α → α) (s : Star α) (maxV : α) : Star α :=
  let v2 := s.vx * s.vx + s.vy * s.vy
  let m2 := maxV * maxV
  if v2 > m2 then
    let f := maxV / sqrt v2
    { s with vx := s.vx * f, vy := s.vy * f }
  else s

/-- The "soft wrap" lines of `step`: four assignments in sequence. -/
def wrap (W H : α) (s : Star α) : Star α :=
  let margin : α := 60
  let x1 := if s.x < -margin then W + margin else s.x
  let x2 := if x1 > W + margin then -margin else x1
  let y1 := if s.y < -margin then H + margin else s.y
  let y2 := if y1 > H + margin then -margin else y1
  { s with x := x2, y := y2 }

/-- The twinkle line of `step`: `s.phase += CFG.twinkleSpeed`. -/
def twinkle (s : Star α) : Star α :=
  { s with phase := s.phase + (CFG : Config α).twinkleSpeed }

/-- The body of the loop of `step` for one star, in source order. -/
def stepStar (sqrt : α → α) (devicePixelRatio W H : α) (mouse : Mouse α)
    (moonEnabled : Bool) (s : Star α) : Star α :=
  let s1 := seekGather sqrt devicePixelRatio mouse s
  let s2 := springHome s1
  let s3 := damp s2
  let s4 := repelFromMoon sqrt devicePixelRatio W H moonEnabled s3
  let s5 := integrate s4
  let s6 := capVelocity sqrt s5 ((CFG : Config α).maxSpeed * dpr devicePixelRatio)
  let s7 := wrap W H s6
  twinkle s7

/-- The function `step` (physics part): every star is updated in place. -/
def step (sqrt : α → α) (devicePixelRatio : α) (sc : Scene α) : Scene α :=
  let body := stepStar sqrt devicePixelRatio sc.W sc.H sc.mouse sc.moonEnabled
  { sc with stars := sc.stars.map body }

/-- The click listener: toggles `moonNewPhase` on a hit inside the moon disc. -/
def onClick (sqrt : α → α) (devicePixelRatio clientX clientY rectLeft rectTop : α)
    (sc : Scene α) : Scene α :=
  let ratio := dpr devicePixelRatio
  let mouseX := (clientX - rectLeft) * ratio
  let mouseY := (clientY - rectTop) * ratio
  let moonSize := min sc.W sc.H * (moon : MoonCfg α).sizeFactor
  let mx := sc.W * (moon : MoonCfg α).xFactor
  let my := sc.H * (moon : MoonCfg α).yFactor
  let dx := mouseX - mx
  let dy := mouseY - my
  let dist := sqrt (dx * dx + dy * dy)
  if dist < moonSize / 2 then { sc with moonNewPhase := !sc.moonNewPhase } else sc

/-- What the inner loop of `buildConstellations` has found after scanning the
stars of `l` for star `a` at index `i`: nothing within range, or the first
nearest star other than `i`. -/
def ScanInv (a : Star α) (i : Nat) (maxD2 : α) (l : List (Star α)) :
    Option (Nat × α) → Prop
  | none => ∀ p ∈ l.enum, p.1 ≠ i → maxD2 ≤ dist2 a p.2
  | some (j, d) =>
      j ≠ i ∧ (∃ b, (j, b) ∈ l.enum ∧ d = dist2 a b) ∧ d < maxD2 ∧
      ∀ p ∈ l.enum, p.1 ≠ i → d ≤ dist2 a p.2 ∧ (dist2 a p.2 = d → j ≤ p.1)

end Defs

section Frame

variable {α : Type} [LinearOrderedField α]

/-- The wrap lines leave both coordinates inside the margin box. -/
theorem wrap_bounds (W H : α) (s : Star α) (hW : 0 ≤ W) (hH : 0 ≤ H) :
    -60 ≤ (wrap W H s).x ∧ (wrap W H s).x ≤ W + 60 ∧
    -60 ≤ (wrap W H s).y ∧ (wrap W H s).y ≤ H + 60 := by
  simp only [wrap]
  refine ⟨?_, ?_, ?_, ?_⟩ <;> split_ifs <;> linarith

/-- C3: after one frame of `step` on a viewport with `W ≥ 0` and `H ≥ 0`, every
star has `x` in `[-60, W+60]` and `y` in `[-60, H+60]`, whatever the stars,
pointer and moon state were before the frame. -/
theorem step_wrap_bounds (sqrt : α → α) (devicePixelRatio : α) (sc : Scene α)
    (hW : 0 ≤ sc.W) (hH : 0 ≤ sc.H) :
    ∀ s ∈ (step sqrt devicePixelRatio sc).stars,
      -60 ≤ s.x ∧ s.x ≤ sc.W + 60 ∧ -60 ≤ s.y ∧ s.y ≤ sc.H + 60 := by
  intro s hs
  simp only [step, List.mem_map] at hs
  obtain ⟨s0, -, rfl⟩ := hs
  exact wrap_bounds sc.W sc.H _ hW hH

/-- C3 at a concrete scene: one star far outside a 100 x 50 viewport. -/
theorem step_wrap_bounds_witness :
    -60 ≤ (stepStar (fun _ => (0 : ℚ)) 1 100 50 ⟨0, 0, false⟩ true
        ⟨-500, 900, 0, 0, 3, -4, 1, 0⟩).x ∧
    (stepStar (fun _ => (0 : ℚ)) 1 100 50 ⟨0, 0, false⟩ true
        ⟨-500, 900, 0, 0, 3, -4, 1, 0⟩).x ≤ 100 + 60 ∧
    -60 ≤ (stepStar (fun _ => (0 : ℚ)) 1 100 50 ⟨0, 0, false⟩ true
        ⟨-500, 900, 0, 0, 3, -4, 1, 0⟩).y ∧
    (stepStar (fun _ => (0 : ℚ)) 1 100 50 ⟨0, 0, false⟩ true
        ⟨-500, 900, 0, 0, 3, -4, 1, 0⟩).y ≤ 50 + 60 :=
  step_wrap_bounds (fun _ => (0 : ℚ)) 1
    { W := 100, H := 50, stars := [⟨-500, 900, 0, 0, 3, -4, 1, 0⟩], edges := [],
      mouse := ⟨0, 0, false⟩, moonEnabled := true, moonNewPhase := false }
    (by norm_num) (by norm_num) _
    (List.mem_map_of_mem _ (List.mem_singleton_self _))

/-- With the pointer inactive `seekGather` returns at its first line. -/
theorem seekGather_inactive (sqrt : α → α) (devicePixelRatio : α) (mouse : Mouse α)
    (s : Star α) (h : mouse.active = false) :
    seekGather sqrt devicePixelRatio mouse s = s := by
  simp [seekGather, h]

/-- Beyond the gather radius `seekGather` returns at the test `d2 > r2`. -/
theorem seekGather_far (sqrt : α → α) (devicePixelRatio : α) (mouse : Mouse α) (s : Star α)
    (h : (mouse.x - s.x) * (mouse.x - s.x) + (mouse.y - s.y) * (mouse.y - s.y)
        > ((CFG : Config α).gatherRadius * dpr devicePixelRatio) ^ 2) :
    seekGather sqrt devicePixelRatio mouse s = s := by
  unfold seekGather
  by_cases ha : mouse.active = true
  · simp only [ha, Bool.not_true, Bool.false_eq_true, if_false, if_pos h]
  · simp [ha]

/-- C9: `seekGather` returns the star unchanged (position, velocity and every
other field) when the pointer is inactive, and when the squared distance from
the star to the pointer exceeds `(gatherRadius * dpr)^2`. -/
theorem seekGather_noop (sqrt : α → α) (devicePixelRatio : α) (mouse : Mouse α) (s : Star α)
    (h : mouse.active = false ∨
      (mouse.x - s.x) * (mouse.x - s.x) + (mouse.y - s.y) * (mouse.y - s.y)
        > ((CFG : Config α).gatherRadius * dpr devicePixelRatio) ^ 2) :
    seekGather sqrt devicePixelRatio mouse s = s ∧
      (seekGather sqrt devicePixelRatio mouse s).x = s.x ∧
      (seekGather sqrt devicePixelRatio mouse s).y = s.y ∧
      (seekGather sqrt devicePixelRatio mouse s).vx = s.vx ∧
      (seekGather sqrt devicePixelRatio mouse s).vy = s.vy := by
  have key : seekGather sqrt devicePixelRatio mouse s = s := by
    rcases h with h | h
    · exact seekGather_inactive sqrt devicePixelRatio mouse s h
    · exact seekGather_far sqrt devicePixelRatio mouse s h
  rw [key]
  exact ⟨rfl, rfl, rfl, rfl, rfl⟩

/-- C9 at a concrete input: an active pointer 1000 px away from the star. -/
theorem seekGather_noop_witness :
    seekGather (fun _ => (0 : ℚ)) 1 ⟨1000, 0, true⟩ ⟨0, 0, 5, 5, 1, 2, 1, 0⟩
      = ⟨0, 0, 5, 5, 1, 2, 1, 0⟩ :=
  (seekGather_noop (fun _ => (0 : ℚ)) 1 ⟨1000, 0, true⟩ ⟨0, 0, 5, 5, 1, 2, 1, 0⟩
    (Or.inr (by norm_num [CFG, dpr]))).1

/-- C10: a star at its home (inside the wrap box) with zero velocity, pointer
inactive and moon disabled, comes out of one frame with the same position and
zero velocity; only `phase` changes, by `twinkleSpeed`. -/
theorem step_at_rest (sqrt : α → α) (devicePixelRatio W H : α) (mouse : Mouse α) (s : Star α)
    (hm : mouse.active = false)
    (hx : s.x = s.ox) (hy : s.y = s.oy) (hvx : s.vx = 0) (hvy : s.vy = 0)
    (hx1 : -60 ≤ s.ox) (hx2 : s.ox ≤ W + 60) (hy1 : -60 ≤ s.oy) (hy2 : s.oy ≤ H + 60) :
    stepStar sqrt devicePixelRatio W H mouse false s
        = { s with phase := s.phase + (CFG : Config α).twinkleSpeed } ∧
      (stepStar sqrt devicePixelRatio W H mouse false s).x = s.ox ∧
      (stepStar sqrt devicePixelRatio W H mouse false s).y = s.oy ∧
      (stepStar sqrt devicePixelRatio W H mouse false s).vx = 0 ∧
      (stepStar sqrt devicePixelRatio W H mouse false s).vy = 0 := by
  have h1 : seekGather sqrt devicePixelRatio mouse s = s :=
    seekGather_inactive sqrt devicePixelRatio mouse s hm
  obtain ⟨x, y, ox, oy, vx, vy, r, phase⟩ := s
  simp only at hx hy hvx hvy hx1 hx2 hy1 hy2
  subst hx hy hvx hvy
  have hcap : ¬ ((0 : α) > (16 / 10 * dpr devicePixelRatio) * (16 / 10 * dpr devicePixelRatio)) :=
    not_lt.mpr (mul_self_nonneg _)
  have key : stepStar sqrt devicePixelRatio W H mouse false ⟨x, y, x, y, 0, 0, r, phase⟩
      = ⟨x, y, x, y, 0, 0, r, phase + (CFG : Config α).twinkleSpeed⟩ := by
    simp only [stepStar, h1, springHome, damp, repelFromMoon, integrate, capVelocity, wrap,
      twinkle, CFG]
    simp [hcap, not_lt.mpr hx1, not_lt.mpr hx2, not_lt.mpr hy1, not_lt.mpr hy2]
  rw [key]
  exact ⟨rfl, rfl, rfl, rfl, rfl⟩

/-- C10 at a concrete input: a star resting at `(30, 40)` on an 800 x 600 viewport. -/
theorem step_at_rest_witness :
    stepStar (fun _ => (0 : ℚ)) 1 800 600 ⟨7, 7, false⟩ false ⟨30, 40, 30, 40, 0, 0, 2, 1⟩
      = ⟨30, 40, 30, 40, 0, 0, 2, 1 + (CFG : Config ℚ).twinkleSpeed⟩ :=
  (step_at_rest (fun _ => (0 : ℚ)) 1 800 600 ⟨7, 7, false⟩ ⟨30, 40, 30, 40, 0, 0, 2, 1⟩
    rfl rfl rfl rfl rfl (by norm_num) (by norm_num) (by norm_num) (by norm_num)).1

end Frame

section Speed

end Speed

section Moon

/-- The click listener changes nothing but `moonNewPhase`, and flips it exactly
on a hit. -/
theorem onClick_eq (sqrt : ℝ → ℝ) (devicePixelRatio clientX clientY rectLeft rectTop : ℝ)
    (sc : Scene ℝ) :
    onClick sqrt devicePixelRatio clientX clientY rectLeft rectTop sc =
      if sqrt (((clientX - rectLeft) * dpr devicePixelRatio - sc.W * (92 / 100)) *
              ((clientX - rectLeft) * dpr devicePixelRatio - sc.W * (92 / 100)) +
            ((clientY - rectTop) * dpr devicePixelRatio - sc.H * (17 / 100)) *
              ((clientY - rectTop) * dpr devicePixelRatio - sc.H * (17 / 100)))
          < min sc.W sc.H * (25 / 100) / 2
      then { sc with moonNewPhase := !sc.moonNewPhase } else sc := by
  simp only [onClick, moon]

/-- C6: the phase starts Full; a click flips `moonNewPhase` exactly when its
distance to `(0.92 W, 0.17 H)` is below `min(W,H) * 0.25 / 2` and changes nothing
otherwise; a second click inside restores the scene; a click at the moon centre
of a viewport with `W, H > 0` turns Full into New. -/
theorem click_toggles_moon (devicePixelRatio clientX clientY rectLeft rectTop : ℝ)
    (sc : Scene ℝ) :
    (initScene : Scene ℝ).moonNewPhase = false ∧
    (Real.sqrt (((clientX - rectLeft) * dpr devicePixelRatio - sc.W * (92 / 100)) ^ 2 +
          ((clientY - rectTop) * dpr devicePixelRatio - sc.H * (17 / 100)) ^ 2)
        < min sc.W sc.H * (25 / 100) / 2 →
      onClick Real.sqrt devicePixelRatio clientX clientY rectLeft rectTop sc
          = { sc with moonNewPhase := !sc.moonNewPhase } ∧
        ∀ ratio2 clientX2 clientY2 rectLeft2 rectTop2 : ℝ,
          Real.sqrt (((clientX2 - rectLeft2) * dpr ratio2 - sc.W * (92 / 100)) ^ 2 +
              ((clientY2 - rectTop2) * dpr ratio2 - sc.H * (17 / 100)) ^ 2)
            < min sc.W sc.H * (25 / 100) / 2 →
          onClick Real.sqrt ratio2 clientX2 clientY2 rectLeft2 rectTop2
            (onClick Real.sqrt devicePixelRatio clientX clientY rectLeft rectTop sc) = sc) ∧
    (¬ Real.sqrt (((clientX - rectLeft) * dpr devicePixelRatio - sc.W * (92 / 100)) ^ 2 +
          ((clientY - rectTop) * dpr devicePixelRatio - sc.H * (17 / 100)) ^ 2)
        < min sc.W sc.H * (25 / 100) / 2 →
      onClick Real.sqrt devicePixelRatio clientX clientY rectLeft rectTop sc = sc) ∧
    (0 < sc.W → 0 < sc.H → sc.moonNewPhase = false →
      (clientX - rectLeft) * dpr devicePixelRatio = sc.W * (92 / 100) →
      (clientY - rectTop) * dpr devicePixelRatio = sc.H * (17 / 100) →
      (onClick Real.sqrt devicePixelRatio clientX clientY rectLeft rectTop sc).moonNewPhase
        = true) := by
  refine ⟨rfl, ?_, ?_, ?_⟩
  · intro h
    have h1 : onClick Real.sqrt devicePixelRatio clientX clientY rectLeft rectTop sc
        = { sc with moonNewPhase := !sc.moonNewPhase } := by
      rw [onClick_eq]
      simp only [sq] at h
      rw [if_pos h]
    refine ⟨h1, ?_⟩
    intro ratio2 clientX2 clientY2 rectLeft2 rectTop2 h2
    rw [h1, onClick_eq]
    simp only [sq] at h2
    rw [if_pos h2]
    cases sc
    simp
  · intro h
    rw [onClick_eq]
    simp only [sq] at h
    rw [if_neg h]
  · intro hW hH hp hx hy
    rw [onClick_eq, hx, hy]
    have : Real.sqrt ((sc.W * (92 / 100) - sc.W * (92 / 100)) *
          (sc.W * (92 / 100) - sc.W * (92 / 100)) +
        (sc.H * (17 / 100) - sc.H * (17 / 100)) * (sc.H * (17 / 100) - sc.H * (17 / 100)))
        < min sc.W sc.H * (25 / 100) / 2 := by
      have hmin : 0 < min sc.W sc.H := lt_min hW hH
      simp only [sub_self, mul_zero, add_zero, Real.sqrt_zero]
      positivity
    rw [if_pos this]
    simp [hp]

/-- C6 at a concrete input: a click at the moon centre `(920, 136)` of a
1000 x 800 viewport in the initial (Full) state gives New. -/
theorem click_toggles_moon_witness :
    (onClick Real.sqrt 1 920 136 0 0
        { W := 1000, H := 800, stars := [], edges := [], mouse := ⟨0, 0, false⟩,
          moonEnabled := true, moonNewPhase := false }).moonNewPhase = true :=
  (click_toggles_moon 1 920 136 0 0
      { W := 1000, H := 800, stars := [], edges := [], mouse := ⟨0, 0, false⟩,
        moonEnabled := true, moonNewPhase := false }).2.2.2
    (by norm_num) (by norm_num) rfl (by norm_num [dpr]) (by norm_num [dpr])

/-- Magnitude of `(dx, dy) / (d + e) * f` when `d = sqrt (dx^2 + dy^2)`. -/
theorem scaled_radial_norm (dx dy f e : ℝ) (hf : 0 ≤ f) (he : 0 < e) :
    Real.sqrt ((dx / (Real.sqrt (dx ^ 2 + dy ^ 2) + e) * f) ^ 2 +
        (dy / (Real.sqrt (dx ^ 2 + dy ^ 2) + e) * f) ^ 2)
      = f * (Real.sqrt (dx ^ 2 + dy ^ 2) / (Real.sqrt (dx ^ 2 + dy ^ 2) + e)) := by
  have hd2n : 0 ≤ dx ^ 2 + dy ^ 2 := by positivity
  have hd : 0 ≤ Real.sqrt (dx ^ 2 + dy ^ 2) := Real.sqrt_nonneg _
  have hsq : Real.sqrt (dx ^ 2 + dy ^ 2) ^ 2 = dx ^ 2 + dy ^ 2 := Real.sq_sqrt hd2n
  generalize Real.sqrt (dx ^ 2 + dy ^ 2) = d at hd hsq ⊢
  have hdp : 0 < d + e := by linarith
  have e1 : (dx / (d + e) * f) ^ 2 + (dy / (d + e) * f) ^ 2 = (f * (d / (d + e))) ^ 2 := by
    field_simp
    linear_combination (-(f ^ 2)) * hsq
  rw [e1, Real.sqrt_sq]
  exact mul_nonneg hf (div_nonneg hd hdp.le)

/-- The moon block of `step` on a star strictly inside the repulsion radius. -/
theorem repelFromMoon_inside (sqrt : ℝ → ℝ) (devicePixelRatio W H : ℝ) (s : Star ℝ)
    (h : (s.x - W * (92 / 100)) ^ 2 + (s.y - H * (17 / 100)) ^ 2
        < (170 * dpr devicePixelRatio + min W H * (25 / 100) / 2) ^ 2) :
    repelFromMoon sqrt devicePixelRatio W H true s =
      { s with
        vx := s.vx + (s.x - W * (92 / 100)) /
            (sqrt ((s.x - W * (92 / 100)) ^ 2 + (s.y - H * (17 / 100)) ^ 2) + 1 / 1000) *
          (9 / 10 * (1 - ((s.x - W * (92 / 100)) ^ 2 + (s.y - H * (17 / 100)) ^ 2) /
            (170 * dpr devicePixelRatio + min W H * (25 / 100) / 2) ^ 2)),
        vy := s.vy + (s.y - H * (17 / 100)) /
            (sqrt ((s.x - W * (92 / 100)) ^ 2 + (s.y - H * (17 / 100)) ^ 2) + 1 / 1000) *
          (9 / 10 * (1 - ((s.x - W * (92 / 100)) ^ 2 + (s.y - H * (17 / 100)) ^ 2) /
            (170 * dpr devicePixelRatio + min W H * (25 / 100) / 2) ^ 2)) } := by
  have h' : (s.x - W * (92 / 100)) * (s.x - W * (92 / 100)) +
      (s.y - H * (17 / 100)) * (s.y - H * (17 / 100)) <
      (170 * dpr devicePixelRatio + min W H * (25 / 100) / 2) ^ 2 := by
    simpa only [sq] using h
  simp only [repelFromMoon, moon, if_true, if_pos h']
  simp only [sq]

/-- The moon block of `step` at or beyond the repulsion radius, or disabled. -/
theorem repelFromMoon_outside (sqrt : ℝ → ℝ) (devicePixelRatio W H : ℝ) (s : Star ℝ) :
    ((¬ (s.x - W * (92 / 100)) ^ 2 + (s.y - H * (17 / 100)) ^ 2
        < (170 * dpr devicePixelRatio + min W H * (25 / 100) / 2) ^ 2) →
      repelFromMoon sqrt devicePixelRatio W H true s = s) ∧
    repelFromMoon sqrt devicePixelRatio W H false s = s := by
  constructor
  · intro h
    have h' : ¬ (s.x - W * (92 / 100)) * (s.x - W * (92 / 100)) +
        (s.y - H * (17 / 100)) * (s.y - H * (17 / 100)) <
        (170 * dpr devicePixelRatio + min W H * (25 / 100) / 2) ^ 2 := by
      simpa only [sq] using h
    simp only [repelFromMoon, moon, if_true, if_neg h']
  · simp [repelFromMoon]

/-- C7 (as amended): with `dx, dy` the vector from the moon centre to the star,
`d2 = dx^2 + dy^2`, `d = sqrt d2`, `r2 = (repelRadius*dpr + moonSize/2)^2` and
`force = repelStrength * (1 - d2/r2)`: for `d2 < r2` the moon block adds
`(dx, dy) / (d + 0.001) * force` to the velocity, a positive multiple of
`(dx, dy)` with magnitude `force * d / (d + 0.001)`, which is strictly below
`force` and is zero at the moon centre; for `d2 ≥ r2`, or with the moon
disabled, the star is returned unchanged. -/
theorem repelFromMoon_spec (devicePixelRatio W H : ℝ) (s : Star ℝ)
    (dx dy d2 r2 d force : ℝ)
    (hdx : dx = s.x - W * (92 / 100)) (hdy : dy = s.y - H * (17 / 100))
    (hd2 : d2 = dx ^ 2 + dy ^ 2)
    (hr2 : r2 = (170 * dpr devicePixelRatio + min W H * (25 / 100) / 2) ^ 2)
    (hd : d = Real.sqrt d2) (hforce : force = 9 / 10 * (1 - d2 / r2)) :
    (d2 < r2 →
      repelFromMoon Real.sqrt devicePixelRatio W H true s =
          { s with vx := s.vx + dx / (d + 1 / 1000) * force,
                   vy := s.vy + dy / (d + 1 / 1000) * force } ∧
        0 < force ∧ 0 < force / (d + 1 / 1000) ∧
        (repelFromMoon Real.sqrt devicePixelRatio W H true s).vx - s.vx
          = force / (d + 1 / 1000) * dx ∧
        (repelFromMoon Real.sqrt devicePixelRatio W H true s).vy - s.vy
          = force / (d + 1 / 1000) * dy ∧
        Real.sqrt (((repelFromMoon Real.sqrt devicePixelRatio W H true s).vx - s.vx) ^ 2 +
            ((repelFromMoon Real.sqrt devicePixelRatio W H true s).vy - s.vy) ^ 2)
          = force * (d / (d + 1 / 1000)) ∧
        force * (d / (d + 1 / 1000)) < force ∧
        (d2 = 0 → (repelFromMoon Real.sqrt devicePixelRatio W H true s).vx = s.vx ∧
                  (repelFromMoon Real.sqrt devicePixelRatio W H true s).vy = s.vy)) ∧
    (¬ d2 < r2 → repelFromMoon Real.sqrt devicePixelRatio W H true s = s) ∧
    repelFromMoon Real.sqrt devicePixelRatio W H false s = s := by
  subst hdx hdy
  have hout := repelFromMoon_outside Real.sqrt devicePixelRatio W H s
  refine ⟨?_, ?_, hout.2⟩
  · intro h
    have hin := repelFromMoon_inside Real.sqrt devicePixelRatio W H s
      (by rw [← hd2, ← hr2]; exact h)
    rw [← hd2, ← hr2, ← hd, ← hforce] at hin
    have hd2n : 0 ≤ d2 := by rw [hd2]; positivity
    have hr2p : 0 < r2 := lt_of_le_of_lt hd2n h
    have hdn : 0 ≤ d := by rw [hd]; exact Real.sqrt_nonneg _
    have hdp : 0 < d + 1 / 1000 := by linarith
    have hfp : 0 < force := by
      have : d2 / r2 < 1 := (div_lt_one hr2p).mpr h
      rw [hforce]
      nlinarith
    have hnorm := scaled_radial_norm (s.x - W * (92 / 100)) (s.y - H * (17 / 100)) force
      (1 / 1000) hfp.le (by norm_num)
    rw [← hd2, ← hd] at hnorm
    have hvx : (repelFromMoon Real.sqrt devicePixelRatio W H true s).vx - s.vx
        = (s.x - W * (92 / 100)) / (d + 1 / 1000) * force := by
      rw [hin]; simp only; ring
    have hvy : (repelFromMoon Real.sqrt devicePixelRatio W H true s).vy - s.vy
        = (s.y - H * (17 / 100)) / (d + 1 / 1000) * force := by
      rw [hin]; simp only; ring
    refine ⟨hin, hfp, div_pos hfp hdp, ?_, ?_, ?_, ?_, ?_⟩
    · rw [hvx]; ring
    · rw [hvy]; ring
    · rw [hvx, hvy]; exact hnorm
    · have : d / (d + 1 / 1000) < 1 := by
        rw [div_lt_one hdp]; linarith
      nlinarith
    · intro h0
      rw [hd2] at h0
      have hx : s.x - W * (92 / 100) = 0 := by
        nlinarith [sq_nonneg (s.x - W * (92 / 100)), sq_nonneg (s.y - H * (17 / 100))]
      have hy : s.y - H * (17 / 100) = 0 := by
        nlinarith [sq_nonneg (s.x - W * (92 / 100)), sq_nonneg (s.y - H * (17 / 100))]
      have e1 := hvx
      have e2 := hvy
      rw [hx, zero_div, zero_mul] at e1
      rw [hy, zero_div, zero_mul] at e2
      exact ⟨sub_eq_zero.mp e1, sub_eq_zero.mp e2⟩
  · intro h
    exact hout.1 (by rw [← hd2, ← hr2]; exact h)

/-- C7 as stated fails: on a 1000 x 1000 viewport with `dpr = 1`, a star at the
moon centre `(920, 170)` is inside the repulsion radius, the claimed magnitude
`repelStrength * (1 - d2/r2)` is `0.9`, and the moon block adds no velocity. -/
theorem repelFromMoon_centre_counterexample :
    ((920 : ℝ) - 1000 * (92 / 100)) ^ 2 + ((170 : ℝ) - 1000 * (17 / 100)) ^ 2
        < (170 * dpr 1 + min 1000 1000 * (25 / 100) / 2) ^ 2 ∧
      (9 / 10 : ℝ) * (1 - (((920 : ℝ) - 1000 * (92 / 100)) ^ 2 +
          ((170 : ℝ) - 1000 * (17 / 100)) ^ 2) /
        (170 * dpr 1 + min 1000 1000 * (25 / 100) / 2) ^ 2) = 9 / 10 ∧
      repelFromMoon Real.sqrt 1 1000 1000 true ⟨920, 170, 920, 170, 0, 0, 1, 0⟩
        = ⟨920, 170, 920, 170, 0, 0, 1, 0⟩ ∧
      ¬ Real.sqrt
          (((repelFromMoon Real.sqrt 1 1000 1000 true ⟨920, 170, 920, 170, 0, 0, 1, 0⟩).vx
              - 0) ^ 2 +
            ((repelFromMoon Real.sqrt 1 1000 1000 true ⟨920, 170, 920, 170, 0, 0, 1, 0⟩).vy
              - 0) ^ 2) = 9 / 10 := by
  have hrep : repelFromMoon Real.sqrt 1 1000 1000 true ⟨920, 170, 920, 170, 0, 0, 1, 0⟩
      = ⟨920, 170, 920, 170, 0, 0, 1, 0⟩ := by
    rw [repelFromMoon_inside Real.sqrt 1 1000 1000 ⟨920, 170, 920, 170, 0, 0, 1, 0⟩
      (by norm_num [dpr])]
    norm_num
  refine ⟨by norm_num [dpr], by norm_num [dpr], hrep, ?_⟩
  rw [hrep]
  norm_num

/-- C7 (as amended) at a concrete input: viewport 0 x 0, `dpr = 1`, star at
`(3, 4)`, so `d2 = 25 < r2 = 28900`. -/
theorem repelFromMoon_spec_witness :
    repelFromMoon Real.sqrt 1 0 0 true ⟨3, 4, 0, 0, 0, 0, 1, 0⟩
      = ⟨3, 4, 0, 0, 0 + 3 / (Real.sqrt 25 + 1 / 1000) * (9 / 10 * (1 - 25 / 28900)),
          0 + 4 / (Real.sqrt 25 + 1 / 1000) * (9 / 10 * (1 - 25 / 28900)), 1, 0⟩ :=
  ((repelFromMoon_spec 1 0 0 ⟨3, 4, 0, 0, 0, 0, 1, 0⟩ 3 4 25 28900 (Real.sqrt 25)
    (9 / 10 * (1 - 25 / 28900)) (by norm_num) (by norm_num) (by norm_num)
    (by norm_num [dpr]) rfl rfl).1 (by norm_num)).1

end Moon

section Store

variable {α : Type} [LinearOrderedField α]

end Store

section Resize

variable {α : Type} [LinearOrderedField α] [FloorRing α]

end Resize

section Index

/-- The first indices of a list built by `filterMap` from indexed pairs, when
the map keeps the index, form a sublist of the indices. -/
theorem filterMap_index_sublist {β : Type} (f : Nat × β → Option (Edge α))
    (hf : ∀ p e, f p = some e → e.i = p.1) (l : List (Nat × β)) :
    List.Sublist ((l.filterMap f).map Edge.i) (l.map Prod.fst) := by
  induction l with
  | nil => simp
  | cons p l ih =>
    cases hp : f p with
    | none =>
      rw [List.filterMap_cons_none hp, List.map_cons]
      exact ih.cons _
    | some e =>
      rw [List.filterMap_cons_some hp, List.map_cons, List.map_cons, hf p e hp]
      exact ih.cons₂ _

end Index

section Links

variable {α : Type} [LinearOrderedField α]

/-- The scan invariant holds after every prefix of the inner loop. -/
theorem scan_inv (a : Star α) (i : Nat) (maxD2 : α) (l : List (Star α)) :
    ScanInv a i maxD2 l (l.enum.foldl (scanStep a i maxD2) none) := by
  induction l using List.reverseRecOn with
  | nil => intro p hp; simp at hp
  | append_singleton l x ih =>
    rw [List.enum_append, List.foldl_append, List.enumFrom_singleton]
    simp only [List.foldl_cons, List.foldl_nil]
    have hmem : ∀ p : Nat × Star α, p ∈ (l ++ [x]).enum ↔ p ∈ l.enum ∨ p = (l.length, x) := by
      intro p
      rw [List.enum_append, List.enumFrom_singleton, List.mem_append, List.mem_singleton]
    generalize l.enum.foldl (scanStep a i maxD2) none = res at ih
    unfold scanStep
    by_cases hi : l.length = i
    · simp only [hi, if_true]
      cases res with
      | none =>
        intro p hp hpi
        rcases (hmem p).mp hp with h | h
        · exact ih p h hpi
        · exact absurd (by rw [h, hi]) hpi
      | some jd =>
        obtain ⟨j, d⟩ := jd
        obtain ⟨h1, ⟨b, hb, hd⟩, h3, h4⟩ := ih
        refine ⟨h1, ⟨b, (hmem _).mpr (Or.inl hb), hd⟩, h3, ?_⟩
        intro p hp hpi
        rcases (hmem p).mp hp with h | h
        · exact h4 p h hpi
        · exact absurd (by rw [h, hi]) hpi
    · simp only [hi, if_false]
      cases res with
      | none =>
        simp only
        by_cases hlt : dist2 a x < maxD2
        · simp only [hlt, if_true]
          refine ⟨hi, ⟨x, (hmem _).mpr (Or.inr rfl), rfl⟩, hlt, ?_⟩
          intro p hp hpi
          rcases (hmem p).mp hp with h | h
          · have := ih p h hpi
            exact ⟨le_trans hlt.le this, fun he => absurd hlt (not_lt.mpr (he ▸ this))⟩
          · subst h
            exact ⟨le_refl _, fun _ => le_refl _⟩
        · simp only [hlt, if_false]
          intro p hp hpi
          rcases (hmem p).mp hp with h | h
          · exact ih p h hpi
          · subst h
            exact not_lt.mp hlt
      | some jd =>
        obtain ⟨j, d⟩ := jd
        obtain ⟨h1, ⟨b, hb, hd⟩, h3, h4⟩ := ih
        simp only
        by_cases hlt : dist2 a x < d ∧ dist2 a x < maxD2
        · simp only [hlt, and_self, if_true]
          refine ⟨hi, ⟨x, (hmem _).mpr (Or.inr rfl), rfl⟩, hlt.2, ?_⟩
          intro p hp hpi
          rcases (hmem p).mp hp with h | h
          · have := (h4 p h hpi).1
            exact ⟨le_trans hlt.1.le this,
              fun he => absurd hlt.1 (not_lt.mpr (he ▸ this))⟩
          · subst h
            exact ⟨le_refl _, fun _ => le_refl _⟩
        · rw [if_neg hlt]
          refine ⟨h1, ⟨b, (hmem _).mpr (Or.inl hb), hd⟩, h3, ?_⟩
          intro p hp hpi
          rcases (hmem p).mp hp with h | h
          · exact h4 p h hpi
          · subst h
            have hjl : j < l.length := List.fst_lt_of_mem_enum hb
            have hle : d ≤ dist2 a x := by
              by_contra hc
              exact hlt ⟨not_le.mp hc, lt_trans (not_le.mp hc) h3⟩
            exact ⟨hle, fun _ => hjl.le⟩

/-- Every candidate edge is the result of the inner loop for its first index. -/
theorem mem_candidates (stars : List (Star α)) (maxD2 : α) (e : Edge α)
    (he : e ∈ candidates stars maxD2) :
    ∃ a, stars[e.i]? = some a ∧ nearest stars maxD2 e.i a = some (e.j, e.d2) := by
  simp only [candidates, List.mem_filterMap, Option.map_eq_some'] at he
  obtain ⟨⟨i, a⟩, hia, ⟨j, d⟩, hn, rfl⟩ := he
  exact ⟨a, List.mk_mem_enum_iff_getElem?.mp hia, hn⟩

/-- Every candidate edge joins a star to its first nearest other star, within range. -/
theorem candidate_spec (stars : List (Star α)) (maxD2 : α) (e : Edge α)
    (he : e ∈ candidates stars maxD2) :
    ∃ a b, stars[e.i]? = some a ∧ stars[e.j]? = some b ∧ e.j ≠ e.i ∧
      e.d2 = dist2 a b ∧ e.d2 < maxD2 ∧
      ∀ k c, stars[k]? = some c → k ≠ e.i →
        e.d2 ≤ dist2 a c ∧ (dist2 a c = e.d2 → e.j ≤ k) := by
  obtain ⟨a, ha, hn⟩ := mem_candidates stars maxD2 e he
  have hinv := scan_inv a e.i maxD2 stars
  unfold nearest at hn
  rw [hn] at hinv
  obtain ⟨h1, ⟨b, hb, hd⟩, h3, h4⟩ := hinv
  refine ⟨a, b, ha, List.mk_mem_enum_iff_getElem?.mp hb, h1, hd, h3, ?_⟩
  intro k c hk hki
  exact h4 (k, c) (List.mk_mem_enum_iff_getElem?.mpr hk) hki

/-- A star with another star within range has a candidate edge. -/
theorem candidate_exists (stars : List (Star α)) (maxD2 : α) (i : Nat) (a : Star α)
    (ha : stars[i]? = some a)
    (hk : ∃ k c, stars[k]? = some c ∧ k ≠ i ∧ dist2 a c < maxD2) :
    ∃ e ∈ candidates stars maxD2, e.i = i := by
  obtain ⟨k, c, hkc, hki, hlt⟩ := hk
  have hinv := scan_inv a i maxD2 stars
  cases hres : stars.enum.foldl (scanStep a i maxD2) none with
  | none =>
    rw [hres] at hinv
    have := hinv (k, c) (List.mk_mem_enum_iff_getElem?.mpr hkc) hki
    exact absurd hlt (not_lt.mpr this)
  | some jd =>
    refine ⟨{ i := i, j := jd.1, d2 := jd.2 }, ?_, rfl⟩
    simp only [candidates, List.mem_filterMap, Option.map_eq_some']
    exact ⟨(i, a), List.mk_mem_enum_iff_getElem?.mpr ha, jd, hres, rfl⟩

/-- The candidate list has at most one edge per star, in index order. -/
theorem candidates_index_sorted (stars : List (Star α)) (maxD2 : α) :
    ((candidates stars maxD2).map Edge.i).Pairwise (fun i1 i2 => i1 < i2) := by
  have hsub : List.Sublist ((candidates stars maxD2).map Edge.i) (stars.enum.map Prod.fst) := by
    unfold candidates
    apply filterMap_index_sublist
    intro p e hpe
    simp only [Option.map_eq_some'] at hpe
    obtain ⟨jd, -, rfl⟩ := hpe
    rfl
  rw [List.enum_map_fst] at hsub
  exact List.Pairwise.sublist hsub (List.pairwise_lt_range _)

/-- The edges kept by `buildConstellations` are candidates. -/
theorem mem_buildConstellations (d : α) (stars : List (Star α)) (e : Edge α)
    (he : e ∈ buildConstellations d stars) :
    e ∈ candidates stars (((CFG : Config α).constellateDist * dpr d) ^ 2) := by
  simp only [buildConstellations] at he
  exact (List.perm_insertionSort edgeLE _).mem_iff.mp (List.mem_of_mem_take he)

/-- The kept edges are ascending and the candidates left out are no shorter. -/
theorem buildConstellations_sorted (d : α) (stars : List (Star α)) :
    (buildConstellations d stars).Pairwise edgeLE ∧
    ∃ rest, List.Perm (buildConstellations d stars ++ rest)
        (candidates stars (((CFG : Config α).constellateDist * dpr d) ^ 2)) ∧
      ∀ e ∈ buildConstellations d stars, ∀ c ∈ rest, edgeLE e c := by
  have hs : ((candidates stars (((CFG : Config α).constellateDist * dpr d) ^ 2)).insertionSort
      edgeLE).Pairwise edgeLE := List.sorted_insertionSort edgeLE _
  have hsplit := List.take_append_drop (CFG : Config α).constellations
    ((candidates stars (((CFG : Config α).constellateDist * dpr d) ^ 2)).insertionSort edgeLE)
  rw [← hsplit, List.pairwise_append] at hs
  refine ⟨hs.1, _, ?_, hs.2.2⟩
  simp only [buildConstellations]
  rw [hsplit]
  exact List.perm_insertionSort edgeLE _

/-- Every kept edge has two valid, distinct indices. -/
theorem buildConstellations_indices (d : α) (stars : List (Star α)) :
    (buildConstellations d stars).length ≤ 18 ∧
    ∀ e ∈ buildConstellations d stars,
      e.i < stars.length ∧ e.j < stars.length ∧ e.i ≠ e.j := by
  constructor
  · simp only [buildConstellations, CFG]
    exact List.length_take_le _ _
  · intro e he
    obtain ⟨a, b, ha, hb, hne, -⟩ :=
      candidate_spec stars _ e (mem_buildConstellations d stars e he)
    have h1 : e.i < stars.length := by
      by_contra hc
      rw [List.getElem?_eq_none (not_lt.mp hc)] at ha
      exact Option.noConfusion ha
    have h2 : e.j < stars.length := by
      by_contra hc
      rw [List.getElem?_eq_none (not_lt.mp hc)] at hb
      exact Option.noConfusion hb
    exact ⟨h1, h2, fun h => hne h.symm⟩

/-- C4: `buildConstellations` returns at most 18 edges, each with
`i < stars.length`, `j < stars.length` and `i ≠ j`; the same holds for the
edges and the store that `resize` leaves, whatever the store was before. -/
theorem constellation_edges_valid [FloorRing α] (pi d : α) (win : Window α)
    (rnd : Nat → α) (sc : Scene α) (stars : List (Star α)) :
    ((buildConstellations d stars).length ≤ 18 ∧
      ∀ e ∈ buildConstellations d stars,
        e.i < stars.length ∧ e.j < stars.length ∧ e.i ≠ e.j) ∧
    ((resize pi win rnd sc).edges.length ≤ 18 ∧
      ∀ e ∈ (resize pi win rnd sc).edges,
        e.i < (resize pi win rnd sc).stars.length ∧
        e.j < (resize pi win rnd sc).stars.length ∧ e.i ≠ e.j) := by
  refine ⟨buildConstellations_indices d stars, ?_⟩
  have h : (resize pi win rnd sc).edges
      = buildConstellations win.devicePixelRatio (resize pi win rnd sc).stars := rfl
  rw [h]
  exact buildConstellations_indices _ _

/-- C5: `buildConstellations` returns the first 18 entries of the candidate list
sorted ascending by `d2`.  The candidate list has one edge, in index order, for
each star with another star within range; every returned edge `[i, j, d2]` has
`d2` equal to the squared distance between stars `i` and `j`, `d2` below
`(constellateDist * dpr)^2`, no star `k ≠ i` strictly closer to `i`, and `j` the
least index among the stars at distance `d2`; the returned list is ascending in
`d2` and every candidate left out is no shorter than any returned edge. -/
theorem buildConstellations_nearest (d : α) (stars : List (Star α)) :
    buildConstellations d stars
      = ((candidates stars ((160 * dpr d) ^ 2)).insertionSort edgeLE).take 18 ∧
    ((candidates stars ((160 * dpr d) ^ 2)).map Edge.i).Pairwise (fun i1 i2 => i1 < i2) ∧
    (∀ i a, stars[i]? = some a →
      (∃ k c, stars[k]? = some c ∧ k ≠ i ∧ dist2 a c < (160 * dpr d) ^ 2) →
      ∃ e ∈ candidates stars ((160 * dpr d) ^ 2), e.i = i) ∧
    (∀ e ∈ buildConstellations d stars,
      ∃ a b, stars[e.i]? = some a ∧ stars[e.j]? = some b ∧ e.j ≠ e.i ∧
        e.d2 = (a.x - b.x) * (a.x - b.x) + (a.y - b.y) * (a.y - b.y) ∧
        e.d2 < (160 * dpr d) ^ 2 ∧
        ∀ k c, stars[k]? = some c → k ≠ e.i →
          e.d2 ≤ dist2 a c ∧ (dist2 a c = e.d2 → e.j ≤ k)) ∧
    (buildConstellations d stars).Pairwise (fun e1 e2 => e1.d2 ≤ e2.d2) ∧
    ∃ rest, List.Perm (buildConstellations d stars ++ rest)
        (candidates stars ((160 * dpr d) ^ 2)) ∧
      ∀ e ∈ buildConstellations d stars, ∀ c ∈ rest, e.d2 ≤ c.d2 := by
  have hM : ((CFG : Config α).constellateDist * dpr d) ^ 2 = (160 * dpr d) ^ 2 := rfl
  have hs := buildConstellations_sorted d stars
  rw [hM] at hs
  refine ⟨rfl, candidates_index_sorted stars _, ?_, ?_, hs.1, hs.2⟩
  · intro i a ha hk
    exact candidate_exists stars _ i a ha hk
  · intro e he
    have hc := mem_buildConstellations d stars e he
    rw [hM] at hc
    exact candidate_spec stars _ e hc

end Links

section Phase

variable {α : Type} [LinearOrderedField α]

/-- One frame adds `twinkleSpeed` to the phase and does nothing else to it. -/
theorem stepStar_phase (sqrt : α → α) (devicePixelRatio W H : α) (mouse : Mouse α)
    (moonEnabled : Bool) (s : Star α) :
    (stepStar sqrt devicePixelRatio W H mouse moonEnabled s).phase
      = s.phase + (CFG : Config α).twinkleSpeed := by
  have h1 : (seekGather sqrt devicePixelRatio mouse s).phase = s.phase := by
    simp only [seekGather]
    split_ifs <;> rfl
  have h4 : ∀ t : Star α,
      (repelFromMoon sqrt devicePixelRatio W H moonEnabled t).phase = t.phase := by
    intro t
    simp only [repelFromMoon]
    split_ifs <;> rfl
  have h6 : ∀ (t : Star α) (m : α), (capVelocity sqrt t m).phase = t.phase := by
    intro t m
    simp only [capVelocity]
    split_ifs <;> rfl
  simp only [stepStar, twinkle, wrap, h6, integrate, h4, damp, springHome, h1]

/-- The phases after `k` frames are the phases before plus `k * twinkleSpeed`. -/
theorem iterate_step_phase (sqrt : α → α) (devicePixelRatio : α) (k : Nat) (sc : Scene α) :
    (((step sqrt devicePixelRatio)^[k]) sc).stars.map Star.phase
      = sc.stars.map fun s : Star α => s.phase + (k : α) * (CFG : Config α).twinkleSpeed := by
  induction k with
  | zero => simp
  | succ k ih =>
    rw [Function.iterate_succ_apply']
    simp only [step, List.map_map]
    have : (Star.phase ∘ stepStar sqrt devicePixelRatio
          (((step sqrt devicePixelRatio)^[k]) sc).W (((step sqrt devicePixelRatio)^[k]) sc).H
          (((step sqrt devicePixelRatio)^[k]) sc).mouse
          (((step sqrt devicePixelRatio)^[k]) sc).moonEnabled)
        = (fun p => p + (CFG : Config α).twinkleSpeed) ∘ Star.phase := by
      funext s
      simp only [Function.comp, stepStar_phase]
    rw [this, ← List.map_map, ih, List.map_map]
    apply List.map_congr_left
    intro s _
    simp only [Function.comp]
    push_cast
    ring

/-- A created star has its phase in `[0, 2π)` when `Math.random()` is in `[0, 1)`. -/
theorem createStars_phase (W H d : ℝ) (rnd : Nat → ℝ) (n : ℤ)
    (hr : ∀ i, 0 ≤ rnd i ∧ rnd i < 1) :
    ∀ s ∈ createStars Real.pi W H d rnd n, 0 ≤ s.phase ∧ s.phase < 2 * Real.pi := by
  intro s hs
  simp only [createStars, List.mem_map] at hs
  obtain ⟨i, -, rfl⟩ := hs
  simp only [newStar]
  have hp := Real.pi_pos
  obtain ⟨h0, h1⟩ := hr (6 * i + 5)
  constructor
  · positivity
  · nlinarith

/-- C8 (as amended): with `Math.random()` in `[0, 1)`, every created star has
its phase in `[0, 2π)`; `k` frames of `step` keep the store's length and add
`k * twinkleSpeed` to every phase, with no reduction modulo `2π`, so after `k`
frames every phase lies in `[k * 0.012, 2π + k * 0.012)`. -/
theorem phase_after_frames (W H d ratio : ℝ) (rnd : Nat → ℝ) (n : ℤ) (k : Nat)
    (sc : Scene ℝ) (hr : ∀ i, 0 ≤ rnd i ∧ rnd i < 1)
    (hs : sc.stars = createStars Real.pi W H d rnd n) :
    (∀ s ∈ sc.stars, 0 ≤ s.phase ∧ s.phase < 2 * Real.pi) ∧
    (((step Real.sqrt ratio)^[k]) sc).stars.map Star.phase
      = sc.stars.map (fun s : Star ℝ => s.phase + (k : ℝ) * (12 / 1000)) ∧
    (∀ s ∈ (((step Real.sqrt ratio)^[k]) sc).stars,
      (k : ℝ) * (12 / 1000) ≤ s.phase ∧ s.phase < 2 * Real.pi + k * (12 / 1000)) := by
  have h0 : ∀ s ∈ sc.stars, 0 ≤ s.phase ∧ s.phase < 2 * Real.pi := by
    rw [hs]; exact createStars_phase W H d rnd n hr
  have h1 := iterate_step_phase Real.sqrt ratio k sc
  have h1' : (((step Real.sqrt ratio)^[k]) sc).stars.map Star.phase
      = sc.stars.map (fun s : Star ℝ => s.phase + (k : ℝ) * (12 / 1000)) := by
    rw [h1]; simp only [CFG]
  refine ⟨h0, h1', ?_⟩
  intro s hsm
  have : s.phase ∈ (((step Real.sqrt ratio)^[k]) sc).stars.map Star.phase :=
    List.mem_map_of_mem _ hsm
  rw [h1', List.mem_map] at this
  obtain ⟨s0, hs0, he⟩ := this
  obtain ⟨ha, hb⟩ := h0 s0 hs0
  rw [← he]
  constructor <;> linarith

/-- C8 as stated fails: a star created with `Math.random() = 0` has phase `0`,
and after 600 frames its phase is `7.2`, which is not below `2π`. -/
theorem phase_counterexample :
    ∃ s ∈ (((step Real.sqrt 1)^[600])
        { W := 100, H := 100, stars := createStars Real.pi 100 100 1 (fun _ => 0) 1,
          edges := [], mouse := ⟨0, 0, false⟩, moonEnabled := true,
          moonNewPhase := false }).stars,
      ¬ (0 ≤ s.phase ∧ s.phase < 2 * Real.pi) := by
  have h := iterate_step_phase Real.sqrt (1 : ℝ) 600
    { W := 100, H := 100, stars := createStars Real.pi 100 100 1 (fun _ => 0) 1,
      edges := [], mouse := ⟨0, 0, false⟩, moonEnabled := true, moonNewPhase := false }
  have hmem : (72 / 10 : ℝ) ∈ ((((step Real.sqrt (1 : ℝ))^[600])
        { W := 100, H := 100, stars := createStars Real.pi 100 100 1 (fun _ => 0) 1,
          edges := [], mouse := ⟨0, 0, false⟩, moonEnabled := true,
          moonNewPhase := false }).stars.map Star.phase) := by
    rw [h]
    simp [createStars, newStar, CFG]
    norm_num
  rw [List.mem_map] at hmem
  obtain ⟨s, hs, hp⟩ := hmem
  refine ⟨s, hs, ?_⟩
  rw [hp]
  intro hc
  have := Real.pi_lt_d2
  linarith [hc.2]

/-- C8 (as amended) at a concrete input: one star created with every random
draw equal to `1/2`, after 3 frames. -/
theorem phase_after_frames_witness :
    (((step Real.sqrt 1)^[3])
        { W := 100, H := 100, stars := createStars Real.pi 100 100 1 (fun _ => 1 / 2) 1,
          edges := [], mouse := ⟨0, 0, false⟩, moonEnabled := true,
          moonNewPhase := false }).stars.map Star.phase
      = (createStars Real.pi 100 100 1 (fun _ => 1 / 2) 1).map
          (fun s : Star ℝ => s.phase + ((3 : Nat) : ℝ) * (12 / 1000)) :=
  (phase_after_frames 100 100 1 1 (fun _ => 1 / 2) 1 3
    { W := 100, H := 100, stars := createStars Real.pi 100 100 1 (fun _ => 1 / 2) 1,
      edges := [], mouse := ⟨0, 0, false⟩, moonEnabled := true, moonNewPhase := false }
    (fun _ => ⟨by norm_num, by norm_num⟩) rfl).2.1

end Phase

end NightSky
